/-
Verification of the gedoc document-production server (episub/gedoc, server/main.go).

Shallow embedding conventions:
* Byte sequences are `List Nat` (one Nat per byte).
* Every external effect (uuid.NewV4, ioutil.TempDir, ioutil.WriteFile,
  ioutil.ReadFile, subprocess runs) is an oracle stored in an environment
  record; a Go `error` is its `err.Error()` string.  `ioutil.ReadFile` is
  modelled all-or-nothing (`Except String (List Nat)`): on error no bytes are
  produced, matching `os.ReadFile`'s behaviour in every non-torn-read case.
* Pipeline executions return a result together with a trace of the
  filesystem / subprocess events they perform, so that ordering and cleanup
  properties can be stated.
-/
import Mathlib

namespace Gedoc

/-- `pb.File` from gedoc.proto: `{name, data, folder}`. -/
structure File where
  name : String
  data : List Nat
  folder : String
deriving DecidableEq, Repr

/-- `pb.FileReply` from gedoc.proto: `{data, success, note}`. -/
structure FileReply where
  data : List Nat
  success : Bool
  note : String
deriving DecidableEq, Repr

/-- The file kinds the merge pipeline distinguishes.  h2non/filetype
recognizes many more types; every recognized type other than pdf/jpg/png is
handled identically by `mergeFiles` (its `switch` has no case for them), so
they are collapsed into `.gif` (kept separate as a concrete recognized
example) and `.other` (standing for every remaining recognized type and for
`types.Unknown`). -/
inductive FileKind where
  | pdf
  | jpg
  | png
  | gif
  | other
deriving DecidableEq, Repr

/-- Magic-number matcher for PDF from h2non/filetype: "%PDF". -/
def isPdfMagic : List Nat → Bool
  | 0x25 :: 0x50 :: 0x44 :: 0x46 :: _ => true
  | _ => false

/-- Magic-number matcher for JPEG from h2non/filetype: FF D8 FF. -/
def isJpgMagic : List Nat → Bool
  | 0xFF :: 0xD8 :: 0xFF :: _ => true
  | _ => false

/-- Magic-number matcher for PNG from h2non/filetype: 89 50 4E 47. -/
def isPngMagic : List Nat → Bool
  | 0x89 :: 0x50 :: 0x4E :: 0x47 :: _ => true
  | _ => false

/-- Magic-number matcher for GIF from h2non/filetype: "GIF". -/
def isGifMagic : List Nat → Bool
  | 0x47 :: 0x49 :: 0x46 :: _ => true
  | _ => false

/-- `filetype.Match(buf)`: returns an error (here `none`) exactly when the
buffer is empty (`ErrEmptyBuffer`); otherwise the matched type, with
`types.Unknown` and every recognized-but-unhandled type collapsed per
`FileKind`.  The matchers used here are mutually exclusive on their leading
bytes, so the (map-ordered) matcher iteration order of the Go library is
irrelevant. -/
def filetypeMatch (data : List Nat) : Option FileKind :=
  if data = [] then none
  else if isPdfMagic data then some .pdf
  else if isJpgMagic data then some .jpg
  else if isPngMagic data then some .png
  else if isGifMagic data then some .gif
  else some .other

/-- `isPrefixL pat l` : is `pat` a prefix of `l` (over characters). -/
def isPrefixL : List Char → List Char → Bool
  | [], _ => true
  | _ :: _, [] => false
  | a :: as, b :: bs => a == b && isPrefixL as bs

/-- `containsL pat l` : does `pat` occur as a contiguous sublist of `l`. -/
def containsL (pat : List Char) : List Char → Bool
  | [] => pat.isEmpty
  | c :: rest => isPrefixL pat (c :: rest) || containsL pat rest

/-- Go's `strings.Contains s sub`. -/
def goContains (s sub : String) : Bool :=
  containsL sub.data s.data

/-- Drop leading whitespace characters. -/
def dropWS : List Char → List Char
  | [] => []
  | c :: rest => if c.isWhitespace then dropWS rest else c :: rest

/-- Go's `strings.TrimSpace`, over characters: strip whitespace from both ends. -/
def trimWS (l : List Char) : List Char :=
  (dropWS (dropWS l).reverse).reverse

/-- Accumulate decimal digits; any non-digit character is a parse error. -/
def parseDigits : Nat → List Char → Option Nat
  | acc, [] => some acc
  | acc, c :: rest =>
    if c.isDigit then parseDigits (acc * 10 + (c.toNat - 48)) rest else none

/-- Go's `strconv.Atoi`: an optional sign followed by at least one decimal
digit; anything else is a parse error (`none`).  (Bit-width overflow, which
cannot arise for page counts, is not modelled.) -/
def goAtoi : List Char → Option Int
  | [] => none
  | '+' :: rest => if rest = [] then none else (parseDigits 0 rest).map Int.ofNat
  | '-' :: rest => if rest = [] then none else (parseDigits 0 rest).map (fun n => -(Int.ofNat n))
  | l => (parseDigits 0 l).map Int.ofNat

/-- Events a pipeline execution performs, in order. -/
inductive Event where
  /-- `ioutil.TempDir` succeeded, creating `dir`. -/
  | mkTempDir (dir : String)
  /-- the deferred `os.RemoveAll dir` ran; `ok` is its outcome (logged only). -/
  | removeDir (dir : String) (ok : Bool)
  /-- build pipeline: `ioutil.WriteFile` of an input file at `path`. -/
  | writeInput (path : String)
  /-- build pipeline: `latexmk -C`. -/
  | runClean
  /-- build pipeline: `latexmk -jobname=job`. -/
  | runBuild (job : String)
  /-- merge pipeline: `ioutil.WriteFile` of prepared document `bytes` at index `idx` (`idx.pdf`). -/
  | writeDoc (idx : Nat) (bytes : List Nat)
  /-- merge pipeline: `qpdf --show-npages idx.pdf`. -/
  | showNpages (idx : Nat)
  /-- merge pipeline: `qpdf --replace-input idx.pdf --pages idx.pdf blankPath --`. -/
  | appendBlank (idx : Nat) (blankPath : String)
  /-- merge pipeline: the final `qpdf` concatenation run with argument list `args`. -/
  | runConcat (args : List String)
deriving DecidableEq, Repr

/-- External world of one `imageToPDF` call. -/
structure ImgEnv where
  /-- `uuid.NewV4()`. -/
  uuid : Except String String
  /-- `ioutil.TempDir("", "imageToPDF")`. -/
  tempDir : Except String String
  /-- error of `ioutil.WriteFile(directory+"/img", ...)`, if any. -/
  writeErr : Option String
  /-- outcome of running `convert img -resize 595x842 -background white -page a4 out.pdf`:
  `some (errMsg, stderr)` on failure. -/
  convertRun : Option (String × String)
  /-- `ioutil.ReadFile(directory+"/"+resultFileName)`. -/
  readResult : Except String (List Nat)

/-- `imageToPDF` from server/main.go: write the image to a scratch workspace,
run ImageMagick convert, read the produced single-page PDF back.  (Its own
scratch directory follows the same create/defer-remove pattern as the merge
and build workspaces; no claim quantifies over it, so its trace is not
recorded.)  On subprocess failure the error is `err.Error() + ": " + stderr`. -/
def imageToPDF (env : ImgEnv) (_file : List Nat) : Except String (List Nat) :=
  match env.uuid with
  | .error e => .error e
  | .ok _id =>
    match env.tempDir with
    | .error e => .error e
    | .ok _dir =>
      match env.writeErr with
      | some e => .error e
      | none =>
        match env.convertRun with
        | some (e, stderrStr) => .error (e ++ ": " ++ stderrStr)
        | none => env.readResult

/-- External world of one `mergeFiles` call. -/
structure MergeEnv where
  /-- `uuid.NewV4()`. -/
  uuid : Except String String
  /-- `ioutil.TempDir("", "mergeFiles")`. -/
  tempDir : Except String String
  /-- outcome of the deferred `os.RemoveAll(directory)` (logged only). -/
  removeOk : Bool
  /-- external world of the `imageToPDF` call made for a given image's bytes. -/
  imgEnv : List Nat → ImgEnv
  /-- error of `ioutil.WriteFile(directory+"/"+i+".pdf", ...)`, by index `i`. -/
  writeErr : Nat → Option String
  /-- `cfg.PdfBlankPath`. -/
  blankPath : String
  /-- stdout of `qpdf --show-npages i.pdf` (or its run error), by index `i`. -/
  showNpages : Nat → Except String String
  /-- error of `qpdf --replace-input i.pdf --pages i.pdf blank --`, by index `i`. -/
  blankMerge : Nat → Option String
  /-- error of the final `qpdf` concatenation `cmd.Run()`, if any (`err.Error()`). -/
  concatErr : Option String
  /-- `ioutil.ReadFile(directory+"/"+outputFileName)`. -/
  readOutput : Except String (List Nat)

/-- Body of the per-file loop of `mergeFiles`: classify `f.Data`; a
classification error (empty buffer) fails the request naming the file; a PDF
passes through; a jpg/png is converted via `imageToPDF` (failure wrapped as
`failed to convert image NAME to pdf: ...`); any other kind appends nothing
(`.ok none`). -/
def prepStep (env : MergeEnv) (f : File) : Except String (Option (List Nat)) :=
  match filetypeMatch f.data with
  | none => .error ("file type for " ++ f.name ++ " unsupported")
  | some FileKind.pdf => .ok (some f.data)
  | some FileKind.jpg =>
    match imageToPDF (env.imgEnv f.data) f.data with
    | .error e => .error ("failed to convert image " ++ f.name ++ " to pdf: " ++ e)
    | .ok converted => .ok (some converted)
  | some FileKind.png =>
    match imageToPDF (env.imgEnv f.data) f.data with
    | .error e => .error ("failed to convert image " ++ f.name ++ " to pdf: " ++ e)
    | .ok converted => .ok (some converted)
  | some FileKind.gif => .ok none
  | some FileKind.other => .ok none

/-- The classification loop of `mergeFiles`: builds `prepared` in input order,
skipping files whose kind has no `switch` case, aborting on the first error. -/
def prepareFiles (env : MergeEnv) : List File → Except String (List (List Nat))
  | [] => .ok []
  | f :: rest =>
    match prepStep env f with
    | .error e => .error e
    | .ok none => prepareFiles env rest
    | .ok (some p) =>
      match prepareFiles env rest with
      | .error e => .error e
      | .ok ps => .ok (p :: ps)

/-- The write / page-parity loop of `mergeFiles` (`for i, p := range prepared`),
starting at index `i`: writes each prepared document to `i.pdf`; when
`forceEven` it runs `qpdf --show-npages`, parses the count with
`strconv.Atoi(strings.TrimSpace(out))` (modelled by `trimWS` / `goAtoi`),
and when `pageCount % 2 == 1` (Go `%` is truncated
division's remainder, `Int.tmod`) appends the configured blank PDF in place;
returns the collected page-file argument names in order. -/
def assembleLoop (env : MergeEnv) (forceEven : Bool) :
    Nat → List (List Nat) → Except String (List String) × List Event
  | _, [] => (.ok [], [])
  | i, p :: rest =>
    let pdfFileName := toString i ++ ".pdf"
    let cont : List Event → Except String (List String) × List Event := fun evs =>
      let (r, tr) := assembleLoop env forceEven (i + 1) rest
      (Except.map (fun as => pdfFileName :: as) r, evs ++ tr)
    match env.writeErr i with
    | some e => (.error e, [Event.writeDoc i p])
    | none =>
      if forceEven then
        match env.showNpages i with
        | .error e =>
          (.error ("exec qpdf page count: " ++ e),
            [Event.writeDoc i p, Event.showNpages i])
        | .ok out =>
          match goAtoi (trimWS out.data) with
          | none =>
            (.error ("show-npages output to int: invalid syntax"),
              [Event.writeDoc i p, Event.showNpages i])
          | some pageCount =>
            if pageCount.tmod 2 = 1 then
              match env.blankMerge i with
              | some e =>
                (.error ("adding blank to odd numberd pdf " ++ toString i ++ ": " ++ e),
                  [Event.writeDoc i p, Event.showNpages i,
                    Event.appendBlank i env.blankPath])
              | none =>
                cont [Event.writeDoc i p, Event.showNpages i,
                  Event.appendBlank i env.blankPath]
            else
              cont [Event.writeDoc i p, Event.showNpages i]
      else
        cont [Event.writeDoc i p]

/-- `mergeFiles` after its workspace has been created: classify/convert each
file, write and (optionally) parity-enforce each prepared document, run the
final `qpdf --empty out --pages 0.pdf .. n.pdf --` concatenation (tolerating
a run error whose text contains "exit status 3"), and read the output back. -/
def mergeBody (env : MergeEnv) (id : String) (files : List File) (forceEven : Bool) :
    Except String (List Nat) × List Event :=
  match prepareFiles env files with
  | .error e => (.error e, [])
  | .ok prepared =>
    let outputFileName := id ++ ".pdf"
    let (r, tr) := assembleLoop env forceEven 0 prepared
    match r with
    | .error e => (.error e, tr)
    | .ok pageArgs =>
      let args := ["--empty", outputFileName, "--pages"] ++ pageArgs ++ ["--"]
      let tr := tr ++ [Event.runConcat args]
      let readBack : Except String (List Nat) :=
        match env.readOutput with
        | .error e => .error ("failed reading produced PDF: " ++ e)
        | .ok bs => .ok bs
      match env.concatErr with
      | some e =>
        if goContains e "exit status 3" then (readBack, tr)
        else (.error ("failed merging pdf files: " ++ e), tr)
      | none => (readBack, tr)

/-- `mergeFiles` from server/main.go.  `uuid.NewV4` and `ioutil.TempDir` run
first (there is no empty-file-list validation in this function); the deferred
`os.RemoveAll` closes the trace on every path entered after the workspace
exists, its outcome never influencing the result. -/
def mergeFiles (env : MergeEnv) (files : List File) (forceEven : Bool) :
    Except String (List Nat) × List Event :=
  match env.uuid with
  | .error e => (.error e, [])
  | .ok id =>
    match env.tempDir with
    | .error e => (.error e, [])
    | .ok dir =>
      let (res, tr) := mergeBody env id files forceEven
      (res, Event.mkTempDir dir :: (tr ++ [Event.removeDir dir env.removeOk]))

/-- External world of one `buildLatexPDF` call. -/
structure BuildEnv where
  /-- `uuid.NewV4()`. -/
  uuid : Except String String
  /-- `ioutil.TempDir("", "buildLatexPDF")`. -/
  tempDir : Except String String
  /-- outcome of the deferred `os.RemoveAll(directory)` (logged only). -/
  removeOk : Bool
  /-- error of `copyLatexSettings(directory)` (os.Create / Write of .latexmkrc), if any. -/
  copyLatexSettings : Option String
  /-- error of `ioutil.WriteFile(directory+"/"+f.Name, f.Data, ...)`, by file position. -/
  writeErr : Nat → Option String
  /-- error of `latexmk -C` (`clean.Output()`), if any. -/
  cleanErr : Option String
  /-- error of `latexmk -jobname=id` (`cmd.Output()`), if any. -/
  buildErr : Option String
  /-- `ioutil.ReadFile(directory+"/"+resultFileName)`, returned as-is. -/
  readResult : Except String (List Nat)

/-- The input-materialization loop of `buildLatexPDF`: each provided file is
written at `directory + "/" + f.Name` (note: `f.folder` is never read). -/
def writeAllInputs (env : BuildEnv) (dir : String) :
    Nat → List File → Option String × List Event
  | _, [] => (none, [])
  | i, f :: rest =>
    let ev := Event.writeInput (dir ++ "/" ++ f.name)
    match env.writeErr i with
    | some e => (some e, [ev])
    | none =>
      let (r, tr) := writeAllInputs env dir (i + 1) rest
      (r, ev :: tr)

/-- `buildLatexPDF` after its workspace has been created: reject an empty file
list, write `.latexmkrc`, materialize the inputs, run `latexmk -C` then
`latexmk -jobname=id`, and return `ioutil.ReadFile(dir/id.pdf)` as-is. -/
def buildBody (env : BuildEnv) (id dir : String) (files : List File) :
    Except String (List Nat) × List Event :=
  if files = [] then (.error "must provide one or more files", [])
  else
    match env.copyLatexSettings with
    | some e => (.error e, [])
    | none =>
      let (w, wtr) := writeAllInputs env dir 0 files
      match w with
      | some e => (.error e, wtr)
      | none =>
        match env.cleanErr with
        | some e => (.error e, wtr ++ [Event.runClean])
        | none =>
          match env.buildErr with
          | some e => (.error e, wtr ++ [Event.runClean, Event.runBuild id])
          | none => (env.readResult, wtr ++ [Event.runClean, Event.runBuild id])

/-- `buildLatexPDF` from server/main.go.  `uuid.NewV4` runs first, then
`ioutil.TempDir`; the empty-file-list check only runs after the workspace has
been created.  The deferred `os.RemoveAll` closes the trace on every path
entered after the workspace exists, its outcome never influencing the
result. -/
def buildLatexPDF (env : BuildEnv) (files : List File) :
    Except String (List Nat) × List Event :=
  match env.uuid with
  | .error e => (.error e, [])
  | .ok id =>
    match env.tempDir with
    | .error e => (.error e, [])
    | .ok dir =>
      let (res, tr) := buildBody env id dir files
      (res, Event.mkTempDir dir :: (tr ++ [Event.removeDir dir env.removeOk]))

/-- The outcome translation shared by both RPC handlers: the reply's `Data` is
the pipeline's bytes, `Success` is `err == nil`, `Note` is the fixed success
message or `err.Error()`. -/
def replyOf (r : Except String (List Nat)) (okNote : String) : FileReply :=
  match r with
  | .ok bs => { data := bs, success := true, note := okNote }
  | .error e => { data := [], success := false, note := e }

/-- `server.BuildLatex`: runs the pipeline and always returns `(reply, nil)`;
the second component is the RPC error, which is always `none`. -/
def serverBuildLatex (env : BuildEnv) (files : List File) :
    (FileReply × Option String) × List Event :=
  let (res, tr) := buildLatexPDF env files
  ((replyOf res "build successful", none), tr)

/-- `server.Merge`: runs the pipeline and always returns `(reply, nil)`;
the second component is the RPC error, which is always `none`. -/
def serverMerge (env : MergeEnv) (files : List File) (forceEven : Bool) :
    (FileReply × Option String) × List Event :=
  let (res, tr) := mergeFiles env files forceEven
  ((replyOf res "merge successful", none), tr)

/-- The page-file argument names `i.pdf, (i+1).pdf, ...` for `n` prepared
documents starting at index `i`. -/
def pageNames : Nat → Nat → List String
  | _, 0 => []
  | i, n + 1 => (toString i ++ ".pdf") :: pageNames (i + 1) n

/-- The trace of a fully successful assemble loop with `forceEven = false`:
one write per prepared document, in index order. -/
def writeEvents : Nat → List (List Nat) → List Event
  | _, [] => []
  | i, p :: rest => Event.writeDoc i p :: writeEvents (i + 1) rest

/-- The trace of a fully successful assemble loop with `forceEven = true`,
when the introspected page count of document `i` is `pages i`: a write and a
page-count query per document, plus one blank-append exactly when the count
is odd. -/
def parityEvents (blankPath : String) (pages : Nat → Int) :
    Nat → List (List Nat) → List Event
  | _, [] => []
  | i, p :: rest =>
    (Event.writeDoc i p :: Event.showNpages i ::
      (if (pages i).tmod 2 = 1 then [Event.appendBlank i blankPath] else [])) ++
      parityEvents blankPath pages (i + 1) rest

/-- Every raw (unwrapped) error string the merge environment can inject is
non-empty.  The remaining merge error messages are built with non-empty
literal prefixes, so this suffices for the notes of all merge failures. -/
def MergeEnvGood (env : MergeEnv) : Prop :=
  (∀ e, env.uuid = .error e → e ≠ "") ∧
  (∀ e, env.tempDir = .error e → e ≠ "") ∧
  (∀ i e, env.writeErr i = some e → e ≠ "")

/-- Every raw (unwrapped) error string the build environment can inject is
non-empty.  `buildLatexPDF` passes all of these through verbatim. -/
def BuildEnvGood (env : BuildEnv) : Prop :=
  (∀ e, env.uuid = .error e → e ≠ "") ∧
  (∀ e, env.tempDir = .error e → e ≠ "") ∧
  (∀ e, env.copyLatexSettings = some e → e ≠ "") ∧
  (∀ i e, env.writeErr i = some e → e ≠ "") ∧
  (∀ e, env.cleanErr = some e → e ≠ "") ∧
  (∀ e, env.buildErr = some e → e ≠ "") ∧
  (∀ e, env.readResult = .error e → e ≠ "")

/-- A concrete image-conversion world in which every step succeeds. -/
def imgEnvOk : ImgEnv :=
  { uuid := .ok "img-id"
    tempDir := .ok "/tmp/imageToPDF1"
    writeErr := none
    convertRun := none
    readResult := .ok [0x25, 0x50, 0x44, 0x46, 0x69] }

/-- A concrete merge world in which every step succeeds. -/
def mEnvOk : MergeEnv :=
  { uuid := .ok "mid"
    tempDir := .ok "/tmp/mergeFiles1"
    removeOk := true
    imgEnv := fun _ => imgEnvOk
    writeErr := fun _ => none
    blankPath := "/gedoc/blank.pdf"
    showNpages := fun _ => .ok "2"
    blankMerge := fun _ => none
    concatErr := none
    readOutput := .ok [0x25, 0x50, 0x44, 0x46, 0x6D] }

/-- A concrete build world in which every step succeeds. -/
def bEnvOk : BuildEnv :=
  { uuid := .ok "bid"
    tempDir := .ok "/tmp/buildLatexPDF1"
    removeOk := true
    copyLatexSettings := none
    writeErr := fun _ => none
    cleanErr := none
    buildErr := none
    readResult := .ok [0x25, 0x50, 0x44, 0x46, 0x62] }

/-- A concrete build world whose `latexmk -C` step fails. -/
def bEnvCleanFail : BuildEnv :=
  { bEnvOk with cleanErr := some "exit status 1" }

/-- A concrete merge world whose final concatenation exits with status 31. -/
def mEnvExit31 : MergeEnv :=
  { mEnvOk with concatErr := some "exit status 31" }

/-- A concrete merge world whose per-document write fails. -/
def mEnvWriteFail : MergeEnv :=
  { mEnvOk with writeErr := fun _ => some "no space left on device" }

/-- A concrete merge world whose final concatenation exits with status 2. -/
def mEnvExit2 : MergeEnv :=
  { mEnvOk with concatErr := some "exit status 2" }

/-- A concrete merge world in which document 0 has 3 pages (odd) and every
other document has 2. -/
def mEnvOdd : MergeEnv :=
  { mEnvOk with showNpages := fun i => .ok (if i = 0 then "3" else "2") }

/-- The page counts reported by `mEnvOdd`. -/
def oddPages (i : Nat) : Int := if i = 0 then 3 else 2

/-- A PDF input file (magic bytes "%PDF"). -/
def pdfFile : File :=
  { name := "a.pdf", data := [0x25, 0x50, 0x44, 0x46, 0x61], folder := "" }

/-- A second PDF input file. -/
def pdfFileB : File :=
  { name := "b.pdf", data := [0x25, 0x50, 0x44, 0x46, 0x62], folder := "" }

/-- A GIF input file (magic bytes "GIF"): recognized by the classifier but
handled by no case of the merge switch. -/
def gifFile : File :=
  { name := "c.gif", data := [0x47, 0x49, 0x46, 0x38], folder := "" }

/-- A plain-text input file ("hello"): non-empty, recognized as no type. -/
def textFile : File :=
  { name := "x.txt", data := [0x68, 0x65, 0x6C, 0x6C, 0x6F], folder := "" }

/-- An input file with empty data: the only case where the classifier errors. -/
def emptyFile : File :=
  { name := "e.bin", data := [], folder := "" }

/-- A build input file carrying a folder subpath. -/
def folderFile : File :=
  { name := "a.tex", data := [0x5C], folder := "sub" }

/-! ### Helper lemmas -/

theorem str_append_ne_left (a b : String) (h : a ≠ "") : a ++ b ≠ "" := by
  intro hab
  apply h
  cases a with
  | mk la =>
    cases b with
    | mk lb =>
      have hd : la ++ lb = ([] : List Char) := congrArg String.data hab
      have : la = [] := (List.append_eq_nil.mp hd).1
      simp [this]

theorem prepStep_error_ne_empty (env : MergeEnv) (f : File) (e : String)
    (h : prepStep env f = .error e) : e ≠ "" := by
  unfold prepStep at h
  cases hk : filetypeMatch f.data with
  | none =>
    rw [hk] at h
    cases h
    exact str_append_ne_left _ _ (str_append_ne_left _ _ (by decide))
  | some k =>
    rw [hk] at h
    cases k
    · cases h
    · cases hc : imageToPDF (env.imgEnv f.data) f.data with
      | error e' =>
        rw [hc] at h; cases h
        exact str_append_ne_left _ _ (str_append_ne_left _ _ (str_append_ne_left _ _ (by decide)))
      | ok c => rw [hc] at h; cases h
    · cases hc : imageToPDF (env.imgEnv f.data) f.data with
      | error e' =>
        rw [hc] at h; cases h
        exact str_append_ne_left _ _ (str_append_ne_left _ _ (str_append_ne_left _ _ (by decide)))
      | ok c => rw [hc] at h; cases h
    · cases h
    · cases h

theorem prepStep_skip (env : MergeEnv) (f : File) (k : FileKind)
    (hk : filetypeMatch f.data = some k)
    (h1 : k ≠ .pdf) (h2 : k ≠ .jpg) (h3 : k ≠ .png) :
    prepStep env f = .ok none := by
  cases k
  · exact absurd rfl h1
  · exact absurd rfl h2
  · exact absurd rfl h3
  · simp [prepStep, hk]
  · simp [prepStep, hk]

theorem prepareFiles_of_forall2 (env : MergeEnv) {files : List File}
    {ps : List (List Nat)}
    (h : List.Forall₂ (fun f p => prepStep env f = .ok (some p)) files ps) :
    prepareFiles env files = .ok ps := by
  induction h with
  | nil => rfl
  | cons hfp _ ih => simp [prepareFiles, hfp, ih]

theorem prepareFiles_skip (env : MergeEnv) (f : File) (k : FileKind)
    (hk : filetypeMatch f.data = some k)
    (h1 : k ≠ .pdf) (h2 : k ≠ .jpg) (h3 : k ≠ .png) :
    ∀ xs ys, prepareFiles env (xs ++ f :: ys) = prepareFiles env (xs ++ ys) := by
  intro xs
  induction xs with
  | nil =>
    intro ys
    simp [prepareFiles, prepStep_skip env f k hk h1 h2 h3]
  | cons x xs ih =>
    intro ys
    simp only [List.cons_append, prepareFiles, List.append_eq, ih ys]

theorem prepareFiles_error_ne_empty (env : MergeEnv) :
    ∀ (files : List File) (e : String), prepareFiles env files = .error e → e ≠ "" := by
  intro files
  induction files with
  | nil => intro e h; cases h
  | cons f rest ih =>
    intro e h
    unfold prepareFiles at h
    cases hs : prepStep env f with
    | error e' =>
      rw [hs] at h; cases h
      exact prepStep_error_ne_empty env f _ hs
    | ok po =>
      rw [hs] at h
      cases po with
      | none => exact ih e h
      | some p =>
        cases hr : prepareFiles env rest with
        | error e' => rw [hr] at h; cases h; exact ih _ hr
        | ok ps => rw [hr] at h; cases h

theorem assembleLoop_false_ok (env : MergeEnv) (hw : ∀ i, env.writeErr i = none) :
    ∀ (ps : List (List Nat)) (i : Nat),
      assembleLoop env false i ps = (.ok (pageNames i ps.length), writeEvents i ps) := by
  intro ps
  induction ps with
  | nil => intro i; rfl
  | cons p rest ih =>
    intro i
    simp [assembleLoop, hw i, ih (i + 1), pageNames, writeEvents, Except.map]

theorem assembleLoop_true_ok (env : MergeEnv) (pages : Nat → Int)
    (hw : ∀ i, env.writeErr i = none)
    (hs : ∀ i, ∃ s, env.showNpages i = .ok s ∧ goAtoi (trimWS s.data) = some (pages i))
    (hb : ∀ i, (pages i).tmod 2 = 1 → env.blankMerge i = none) :
    ∀ (ps : List (List Nat)) (i : Nat),
      assembleLoop env true i ps =
        (.ok (pageNames i ps.length), parityEvents env.blankPath pages i ps) := by
  intro ps
  induction ps with
  | nil => intro i; rfl
  | cons p rest ih =>
    intro i
    obtain ⟨s, hsi, hparse⟩ := hs i
    by_cases hodd : (pages i).tmod 2 = 1
    · simp [assembleLoop, hw i, hsi, hparse, hodd, hb i hodd, ih (i + 1),
        parityEvents, pageNames, Except.map]
    · simp [assembleLoop, hw i, hsi, hparse, hodd, ih (i + 1),
        parityEvents, pageNames, Except.map]

theorem assembleLoop_ok_args (env : MergeEnv) (fe : Bool) :
    ∀ (ps : List (List Nat)) (i : Nat) (pas : List String) (tr : List Event),
      assembleLoop env fe i ps = (.ok pas, tr) → pas = pageNames i ps.length := by
  intro ps
  induction ps with
  | nil =>
    intro i pas tr h
    simp only [assembleLoop] at h
    cases h
    rfl
  | cons p rest ih =>
    intro i pas tr h
    simp only [assembleLoop] at h
    rcases hrec : assembleLoop env fe (i + 1) rest with ⟨r, rtr⟩
    cases hwi : env.writeErr i with
    | some e => rw [hwi] at h; cases h
    | none =>
      rw [hwi] at h
      cases fe with
      | false =>
        simp only [if_neg (by simp : ¬False), Bool.false_eq_true, if_false, hrec] at h
        cases r with
        | error e => cases h
        | ok pas' =>
          simp only [Except.map] at h
          cases h
          simp [pageNames, ih (i + 1) pas' rtr hrec]
      | true =>
        simp only [if_true] at h
        cases hsn : env.showNpages i with
        | error e => simp only [hsn] at h; cases h
        | ok s =>
          simp only [hsn] at h
          cases hpa : goAtoi (trimWS s.data) with
          | none => simp only [hpa] at h; cases h
          | some n =>
            simp only [hpa] at h
            by_cases hodd : n.tmod 2 = 1
            · rw [if_pos hodd] at h
              cases hbm : env.blankMerge i with
              | some e => simp only [hbm] at h; cases h
              | none =>
                simp only [hbm, hrec] at h
                cases r with
                | error e => cases h
                | ok pas' =>
                  simp only [Except.map] at h
                  cases h
                  simp [pageNames, ih (i + 1) pas' rtr hrec]
            · rw [if_neg hodd] at h
              simp only [hrec] at h
              cases r with
              | error e => cases h
              | ok pas' =>
                simp only [Except.map] at h
                cases h
                simp [pageNames, ih (i + 1) pas' rtr hrec]

theorem assembleLoop_events (env : MergeEnv) (fe : Bool) :
    ∀ (ps : List (List Nat)) (i : Nat) (ev : Event),
      ev ∈ (assembleLoop env fe i ps).2 →
      (∃ j p, ev = Event.writeDoc j p) ∨ (∃ j, ev = Event.showNpages j) ∨
        (∃ j, ev = Event.appendBlank j env.blankPath) := by
  intro ps
  induction ps with
  | nil => intro i ev h; cases h
  | cons p rest ih =>
    intro i ev h
    simp only [assembleLoop] at h
    rcases hrec : assembleLoop env fe (i + 1) rest with ⟨r, rtr⟩
    cases hwi : env.writeErr i with
    | some e =>
      simp only [hwi] at h
      simp at h
      exact Or.inl ⟨i, p, h⟩
    | none =>
      simp only [hwi] at h
      cases fe with
      | false =>
        simp only [Bool.false_eq_true, if_false, hrec] at h
        simp at h
        rcases h with h | h
        · exact Or.inl ⟨i, p, h⟩
        · exact ih (i + 1) ev (by rw [hrec]; exact h)
      | true =>
        simp only [if_true] at h
        cases hsn : env.showNpages i with
        | error e =>
          simp only [hsn] at h
          simp at h
          rcases h with h | h
          · exact Or.inl ⟨i, p, h⟩
          · exact Or.inr (Or.inl ⟨i, h⟩)
        | ok s =>
          simp only [hsn] at h
          cases hpa : goAtoi (trimWS s.data) with
          | none =>
            simp only [hpa] at h
            simp at h
            rcases h with h | h
            · exact Or.inl ⟨i, p, h⟩
            · exact Or.inr (Or.inl ⟨i, h⟩)
          | some n =>
            simp only [hpa] at h
            by_cases hodd : n.tmod 2 = 1
            · rw [if_pos hodd] at h
              cases hbm : env.blankMerge i with
              | some e =>
                simp only [hbm] at h
                simp at h
                rcases h with h | h | h
                · exact Or.inl ⟨i, p, h⟩
                · exact Or.inr (Or.inl ⟨i, h⟩)
                · exact Or.inr (Or.inr ⟨i, h⟩)
              | none =>
                simp only [hbm, hrec] at h
                simp at h
                rcases h with h | h | h | h
                · exact Or.inl ⟨i, p, h⟩
                · exact Or.inr (Or.inl ⟨i, h⟩)
                · exact Or.inr (Or.inr ⟨i, h⟩)
                · exact ih (i + 1) ev (by rw [hrec]; exact h)
            · rw [if_neg hodd] at h
              simp only [hrec] at h
              simp at h
              rcases h with h | h | h
              · exact Or.inl ⟨i, p, h⟩
              · exact Or.inr (Or.inl ⟨i, h⟩)
              · exact ih (i + 1) ev (by rw [hrec]; exact h)

theorem assembleLoop_false_events (env : MergeEnv) :
    ∀ (ps : List (List Nat)) (i : Nat) (ev : Event),
      ev ∈ (assembleLoop env false i ps).2 → ∃ j p, ev = Event.writeDoc j p := by
  intro ps
  induction ps with
  | nil => intro i ev h; cases h
  | cons p rest ih =>
    intro i ev h
    simp only [assembleLoop] at h
    rcases hrec : assembleLoop env false (i + 1) rest with ⟨r, rtr⟩
    cases hwi : env.writeErr i with
    | some e =>
      simp only [hwi] at h
      simp at h
      exact ⟨i, p, h⟩
    | none =>
      simp only [hwi, Bool.false_eq_true, if_false, hrec] at h
      simp at h
      rcases h with h | h
      · exact ⟨i, p, h⟩
      · exact ih (i + 1) ev (by rw [hrec]; exact h)

theorem assembleLoop_error_ne_empty (env : MergeEnv) (fe : Bool)
    (hw : ∀ i e, env.writeErr i = some e → e ≠ "") :
    ∀ (ps : List (List Nat)) (i : Nat) (e : String) (tr : List Event),
      assembleLoop env fe i ps = (.error e, tr) → e ≠ "" := by
  intro ps
  induction ps with
  | nil => intro i e tr h; cases h
  | cons p rest ih =>
    intro i e tr h
    simp only [assembleLoop] at h
    rcases hrec : assembleLoop env fe (i + 1) rest with ⟨r, rtr⟩
    cases hwi : env.writeErr i with
    | some e' =>
      simp only [hwi] at h
      cases h
      exact hw i _ hwi
    | none =>
      simp only [hwi] at h
      cases fe with
      | false =>
        simp only [Bool.false_eq_true, if_false, hrec] at h
        cases r with
        | error e' =>
          simp only [Except.map] at h
          cases h
          exact ih (i + 1) _ rtr hrec
        | ok pas => simp only [Except.map] at h; cases h
      | true =>
        simp only [if_true] at h
        cases hsn : env.showNpages i with
        | error e' =>
          simp only [hsn] at h
          cases h
          exact str_append_ne_left _ _ (by decide)
        | ok s =>
          simp only [hsn] at h
          cases hpa : goAtoi (trimWS s.data) with
          | none =>
            simp only [hpa] at h
            cases h
            decide
          | some n =>
            simp only [hpa] at h
            by_cases hodd : n.tmod 2 = 1
            · rw [if_pos hodd] at h
              cases hbm : env.blankMerge i with
              | some e' =>
                simp only [hbm] at h
                cases h
                exact str_append_ne_left _ _
                  (str_append_ne_left _ _ (str_append_ne_left _ _ (by decide)))
              | none =>
                simp only [hbm, hrec] at h
                cases r with
                | error e' =>
                  simp only [Except.map] at h
                  cases h
                  exact ih (i + 1) _ rtr hrec
                | ok pas => simp only [Except.map] at h; cases h
            · rw [if_neg hodd] at h
              simp only [hrec] at h
              cases r with
              | error e' =>
                simp only [Except.map] at h
                cases h
                exact ih (i + 1) _ rtr hrec
              | ok pas => simp only [Except.map] at h; cases h

theorem mergeBody_concat_args (env : MergeEnv) (id : String) (files : List File)
    (fe : Bool) (args : List String)
    (h : Event.runConcat args ∈ (mergeBody env id files fe).2) :
    ∃ ps, prepareFiles env files = .ok ps ∧
      args = ["--empty", id ++ ".pdf", "--pages"] ++ pageNames 0 ps.length ++ ["--"] := by
  unfold mergeBody at h
  cases hp : prepareFiles env files with
  | error e => simp only [hp] at h; cases h
  | ok prepared =>
    simp only [hp] at h
    rcases ha : assembleLoop env fe 0 prepared with ⟨r, tr⟩
    simp only [ha] at h
    cases r with
    | error e =>
      exfalso
      rcases assembleLoop_events env fe prepared 0 _ (by rw [ha]; exact h) with
        ⟨j, p, hj⟩ | ⟨j, hj⟩ | ⟨j, hj⟩ <;> simp at hj
    | ok pageArgs =>
      have hargs : pageArgs = pageNames 0 prepared.length :=
        assembleLoop_ok_args env fe prepared 0 pageArgs tr ha
      have hmem : Event.runConcat args ∈
          tr ++ [Event.runConcat (["--empty", id ++ ".pdf", "--pages"] ++ pageArgs ++ ["--"])] := by
        cases hc : env.concatErr with
        | none => simpa only [hc] using h
        | some e =>
          simp only [hc] at h
          by_cases hg : goContains e "exit status 3"
          · simpa only [if_pos hg] using h
          · simpa only [if_neg hg] using h
      rcases List.mem_append.mp hmem with hin | hin
      · exfalso
        rcases assembleLoop_events env fe prepared 0 _ (by rw [ha]; exact hin) with
          ⟨j, p, hj⟩ | ⟨j, hj⟩ | ⟨j, hj⟩ <;> simp at hj
      · rcases List.mem_singleton.mp hin with heq
        refine ⟨prepared, rfl, ?_⟩
        have := Event.runConcat.inj heq
        rw [this, hargs]

theorem mergeBody_false_events (env : MergeEnv) (id : String) (files : List File)
    (ev : Event) (h : ev ∈ (mergeBody env id files false).2) :
    (∃ j p, ev = Event.writeDoc j p) ∨ (∃ pas, ev = Event.runConcat pas) := by
  unfold mergeBody at h
  cases hp : prepareFiles env files with
  | error e => simp only [hp] at h; cases h
  | ok prepared =>
    simp only [hp] at h
    rcases ha : assembleLoop env false 0 prepared with ⟨r, tr⟩
    simp only [ha] at h
    cases r with
    | error e =>
      rcases assembleLoop_false_events env prepared 0 _ (by rw [ha]; exact h) with ⟨j, p, hj⟩
      exact Or.inl ⟨j, p, hj⟩
    | ok pageArgs =>
      have hmem : ev ∈
          tr ++ [Event.runConcat (["--empty", id ++ ".pdf", "--pages"] ++ pageArgs ++ ["--"])] := by
        cases hc : env.concatErr with
        | none => simpa only [hc] using h
        | some e =>
          simp only [hc] at h
          by_cases hg : goContains e "exit status 3"
          · simpa only [if_pos hg] using h
          · simpa only [if_neg hg] using h
      rcases List.mem_append.mp hmem with hin | hin
      · rcases assembleLoop_false_events env prepared 0 _ (by rw [ha]; exact hin) with ⟨j, p, hj⟩
        exact Or.inl ⟨j, p, hj⟩
      · exact Or.inr ⟨_, List.mem_singleton.mp hin⟩

theorem mergeBody_error_ne_empty (env : MergeEnv) (id : String) (files : List File)
    (fe : Bool) (e : String)
    (hw : ∀ i e', env.writeErr i = some e' → e' ≠ "")
    (h : (mergeBody env id files fe).1 = .error e) : e ≠ "" := by
  unfold mergeBody at h
  cases hp : prepareFiles env files with
  | error e' =>
    simp only [hp] at h
    cases h
    exact prepareFiles_error_ne_empty env files _ hp
  | ok prepared =>
    simp only [hp] at h
    rcases ha : assembleLoop env fe 0 prepared with ⟨r, tr⟩
    simp only [ha] at h
    cases r with
    | error e' =>
      cases h
      exact assembleLoop_error_ne_empty env fe hw prepared 0 _ tr ha
    | ok pageArgs =>
      have hread : ∀ e'', (match env.readOutput with
          | .error e' => Except.error ("failed reading produced PDF: " ++ e')
          | .ok bs => Except.ok bs) = Except.error e'' → e'' ≠ "" := by
        intro e'' hr
        cases hro : env.readOutput with
        | error e3 =>
          simp only [hro] at hr
          cases hr
          exact str_append_ne_left _ _ (by decide)
        | ok bs => simp only [hro] at hr; cases hr
      cases hc : env.concatErr with
      | none =>
        simp only [hc] at h
        exact hread e h
      | some e' =>
        simp only [hc] at h
        by_cases hg : goContains e' "exit status 3"
        · rw [if_pos hg] at h
          exact hread e h
        · rw [if_neg hg] at h
          cases h
          exact str_append_ne_left _ _ (by decide)

theorem mergeFiles_error_ne_empty (env : MergeEnv) (files : List File) (fe : Bool)
    (e : String) (hg : MergeEnvGood env)
    (h : (mergeFiles env files fe).1 = .error e) : e ≠ "" := by
  obtain ⟨hu, ht, hw⟩ := hg
  unfold mergeFiles at h
  cases hue : env.uuid with
  | error e' => simp only [hue] at h; cases h; exact hu _ hue
  | ok id =>
    simp only [hue] at h
    cases hte : env.tempDir with
    | error e' => simp only [hte] at h; cases h; exact ht _ hte
    | ok dir =>
      simp only [hte] at h
      rcases hb : mergeBody env id files fe with ⟨res, tr⟩
      simp only [hb] at h
      refine mergeBody_error_ne_empty env id files fe e hw ?_
      rw [hb, h]

theorem mergeFiles_congr (env : MergeEnv) (files files' : List File) (fe : Bool)
    (h : prepareFiles env files = prepareFiles env files') :
    mergeFiles env files fe = mergeFiles env files' fe := by
  unfold mergeFiles mergeBody
  rw [h]

theorem prepStep_removeOk (env : MergeEnv) (b : Bool) (f : File) :
    prepStep { env with removeOk := b } f = prepStep env f := rfl

theorem prepareFiles_removeOk (env : MergeEnv) (b : Bool) :
    ∀ files, prepareFiles { env with removeOk := b } files = prepareFiles env files := by
  intro files
  induction files with
  | nil => rfl
  | cons f rest ih => simp only [prepareFiles, prepStep_removeOk, ih]

theorem assembleLoop_removeOk (env : MergeEnv) (b : Bool) (fe : Bool) :
    ∀ ps i, assembleLoop { env with removeOk := b } fe i ps = assembleLoop env fe i ps := by
  intro ps
  induction ps with
  | nil => intro i; rfl
  | cons p rest ih => intro i; simp only [assembleLoop, ih (i + 1)]

theorem mergeBody_removeOk (env : MergeEnv) (b : Bool) (id : String)
    (files : List File) (fe : Bool) :
    mergeBody { env with removeOk := b } id files fe = mergeBody env id files fe := by
  simp only [mergeBody, prepareFiles_removeOk, assembleLoop_removeOk]

theorem mergeFiles_fst_removeOk (env : MergeEnv) (b : Bool) (files : List File)
    (fe : Bool) :
    (mergeFiles { env with removeOk := b } files fe).1 = (mergeFiles env files fe).1 := by
  unfold mergeFiles
  simp only [mergeBody_removeOk]
  cases env.uuid with
  | error e => rfl
  | ok id =>
    cases env.tempDir with
    | error e => rfl
    | ok dir =>
      rcases hb : mergeBody env id files fe with ⟨res, tr⟩
      simp

theorem writeAllInputs_ok (env : BuildEnv) (dir : String)
    (hw : ∀ i, env.writeErr i = none) :
    ∀ (files : List File) (k : Nat),
      writeAllInputs env dir k files =
        (none, files.map (fun f => Event.writeInput (dir ++ "/" ++ f.name))) := by
  intro files
  induction files with
  | nil => intro k; rfl
  | cons f rest ih =>
    intro k
    simp [writeAllInputs, hw k, ih (k + 1)]

theorem writeAllInputs_folder_blind (env : BuildEnv) (dir : String) (g : File → String) :
    ∀ (files : List File) (k : Nat),
      writeAllInputs env dir k (files.map (fun f => { f with folder := g f })) =
        writeAllInputs env dir k files := by
  intro files
  induction files with
  | nil => intro k; rfl
  | cons f rest ih =>
    intro k
    simp only [List.map_cons, writeAllInputs, ih (k + 1)]

theorem writeAllInputs_error_ne_empty (env : BuildEnv) (dir : String)
    (hw : ∀ i e', env.writeErr i = some e' → e' ≠ "") :
    ∀ (files : List File) (k : Nat) (e : String) (tr : List Event),
      writeAllInputs env dir k files = (some e, tr) → e ≠ "" := by
  intro files
  induction files with
  | nil => intro k e tr h; cases h
  | cons f rest ih =>
    intro k e tr h
    simp only [writeAllInputs] at h
    cases hwk : env.writeErr k with
    | some e' =>
      simp only [hwk] at h
      cases h
      exact hw k _ hwk
    | none =>
      simp only [hwk] at h
      rcases hrec : writeAllInputs env dir (k + 1) rest with ⟨r, rtr⟩
      simp only [hrec] at h
      cases h
      exact ih (k + 1) _ rtr hrec

theorem buildBody_folder_blind (env : BuildEnv) (id dir : String)
    (files : List File) (g : File → String) :
    buildBody env id dir (files.map (fun f => { f with folder := g f })) =
      buildBody env id dir files := by
  cases files with
  | nil => rfl
  | cons f rest =>
    simp only [List.map_cons, buildBody]
    rw [if_neg (by simp), if_neg (by simp)]
    rw [show writeAllInputs env dir 0
        ({ f with folder := g f } :: rest.map (fun f => { f with folder := g f })) =
        writeAllInputs env dir 0 (f :: rest) by
      have := writeAllInputs_folder_blind env dir g (f :: rest) 0
      simpa using this]

theorem buildLatexPDF_folder_blind (env : BuildEnv) (files : List File)
    (g : File → String) :
    buildLatexPDF env (files.map (fun f => { f with folder := g f })) =
      buildLatexPDF env files := by
  unfold buildLatexPDF
  simp only [buildBody_folder_blind]

theorem buildBody_error_ne_empty (env : BuildEnv) (id dir : String)
    (files : List File) (e : String)
    (hs : ∀ e', env.copyLatexSettings = some e' → e' ≠ "")
    (hw : ∀ i e', env.writeErr i = some e' → e' ≠ "")
    (hc : ∀ e', env.cleanErr = some e' → e' ≠ "")
    (hb : ∀ e', env.buildErr = some e' → e' ≠ "")
    (hr : ∀ e', env.readResult = .error e' → e' ≠ "")
    (h : (buildBody env id dir files).1 = .error e) : e ≠ "" := by
  unfold buildBody at h
  by_cases hnil : files = []
  · rw [if_pos hnil] at h
    cases h
    decide
  · rw [if_neg hnil] at h
    cases hse : env.copyLatexSettings with
    | some e' => simp only [hse] at h; cases h; exact hs _ hse
    | none =>
      simp only [hse] at h
      rcases hwa : writeAllInputs env dir 0 files with ⟨w, wtr⟩
      simp only [hwa] at h
      cases w with
      | some e' =>
        cases h
        exact writeAllInputs_error_ne_empty env dir hw files 0 _ wtr hwa
      | none =>
        cases hce : env.cleanErr with
        | some e' => simp only [hce] at h; cases h; exact hc _ hce
        | none =>
          simp only [hce] at h
          cases hbe : env.buildErr with
          | some e' => simp only [hbe] at h; cases h; exact hb _ hbe
          | none =>
            simp only [hbe] at h
            exact hr _ h

theorem buildLatexPDF_error_ne_empty (env : BuildEnv) (files : List File)
    (e : String) (hg : BuildEnvGood env)
    (h : (buildLatexPDF env files).1 = .error e) : e ≠ "" := by
  obtain ⟨hu, ht, hs, hw, hc, hb, hr⟩ := hg
  unfold buildLatexPDF at h
  cases hue : env.uuid with
  | error e' => simp only [hue] at h; cases h; exact hu _ hue
  | ok id =>
    simp only [hue] at h
    cases hte : env.tempDir with
    | error e' => simp only [hte] at h; cases h; exact ht _ hte
    | ok dir =>
      simp only [hte] at h
      rcases hbb : buildBody env id dir files with ⟨res, tr⟩
      simp only [hbb] at h
      refine buildBody_error_ne_empty env id dir files e hs hw hc hb hr ?_
      rw [hbb, h]

theorem writeAllInputs_removeOk (env : BuildEnv) (b : Bool) (dir : String) :
    ∀ files k, writeAllInputs { env with removeOk := b } dir k files =
      writeAllInputs env dir k files := by
  intro files
  induction files with
  | nil => intro k; rfl
  | cons f rest ih => intro k; simp only [writeAllInputs, ih (k + 1)]

theorem buildBody_removeOk (env : BuildEnv) (b : Bool) (id dir : String)
    (files : List File) :
    buildBody { env with removeOk := b } id dir files = buildBody env id dir files := by
  simp only [buildBody, writeAllInputs_removeOk]

theorem buildLatexPDF_fst_removeOk (env : BuildEnv) (b : Bool) (files : List File) :
    (buildLatexPDF { env with removeOk := b } files).1 = (buildLatexPDF env files).1 := by
  unfold buildLatexPDF
  simp only [buildBody_removeOk]
  cases env.uuid with
  | error e => rfl
  | ok id =>
    cases env.tempDir with
    | error e => rfl
    | ok dir =>
      rcases hb : buildBody env id dir files with ⟨res, tr⟩
      simp

/-! ### Claim theorems -/

/-- C1, counterexample.  With every external step succeeding, `Merge([])` is
not rejected: the reply carries `success=true` and the note "merge
successful", not a note requiring at least one file; and `BuildLatex([])`,
which is rejected, only rejects after its workspace directory has been
created (the trace opens with the temp-dir creation). -/
theorem c1_counterexample :
    (serverMerge mEnvOk [] false).1.1.success = true ∧
      (serverMerge mEnvOk [] false).1.1.note = "merge successful" ∧
      (buildLatexPDF bEnvOk []).2 =
        [Event.mkTempDir "/tmp/buildLatexPDF1",
          Event.removeDir "/tmp/buildLatexPDF1" true] := by
  refine ⟨by decide, by decide, by decide⟩

/-- C1, amended.  `BuildLatex([])` returns `success=false` with the note
"must provide one or more files", but only after a workspace directory has
been allocated (and then removed): the trace is exactly temp-dir creation
followed by removal.  `Merge([])` performs no empty-list validation at all:
it allocates a workspace and invokes the concatenation tool with an empty
page list, and when the tool and the output read succeed it returns
`success=true`. -/
theorem c1_empty_file_list :
    (∀ (env : BuildEnv) (id dir : String), env.uuid = .ok id → env.tempDir = .ok dir →
      buildLatexPDF env [] =
        (.error "must provide one or more files",
          [Event.mkTempDir dir, Event.removeDir dir env.removeOk]) ∧
      (serverBuildLatex env []).1.1 =
        { data := [], success := false, note := "must provide one or more files" }) ∧
    (∀ (env : MergeEnv) (id dir : String) (out : List Nat) (fe : Bool),
      env.uuid = .ok id → env.tempDir = .ok dir → env.concatErr = none →
      env.readOutput = .ok out →
      mergeFiles env [] fe =
        (.ok out,
          [Event.mkTempDir dir,
            Event.runConcat ["--empty", id ++ ".pdf", "--pages", "--"],
            Event.removeDir dir env.removeOk]) ∧
      (serverMerge env [] fe).1.1 =
        { data := out, success := true, note := "merge successful" }) := by
  constructor
  · intro env id dir hu ht
    constructor
    · simp [buildLatexPDF, buildBody, hu, ht]
    · simp [serverBuildLatex, buildLatexPDF, buildBody, replyOf, hu, ht]
  · intro env id dir out fe hu ht hc hr
    constructor
    · simp [mergeFiles, mergeBody, prepareFiles, assembleLoop, hu, ht, hc, hr, pageNames]
    · simp [serverMerge, mergeFiles, mergeBody, prepareFiles, assembleLoop, replyOf,
        hu, ht, hc, hr]

/-- C1, witness for the amended theorem at concrete environments. -/
theorem c1_empty_file_list_witness :
    buildLatexPDF bEnvOk [] =
      (.error "must provide one or more files",
        [Event.mkTempDir "/tmp/buildLatexPDF1",
          Event.removeDir "/tmp/buildLatexPDF1" true]) ∧
    mergeFiles mEnvOk [] true =
      (.ok [0x25, 0x50, 0x44, 0x46, 0x6D],
        [Event.mkTempDir "/tmp/mergeFiles1",
          Event.runConcat ["--empty", "mid.pdf", "--pages", "--"],
          Event.removeDir "/tmp/mergeFiles1" true]) := by
  exact ⟨(c1_empty_file_list.1 bEnvOk "bid" "/tmp/buildLatexPDF1" rfl rfl).1,
    (c1_empty_file_list.2 mEnvOk "mid" "/tmp/mergeFiles1"
      [0x25, 0x50, 0x44, 0x46, 0x6D] true rfl rfl rfl rfl).1⟩

/-- C2, counterexample.  A merge request containing `x.txt` with arbitrary
non-empty text bytes (neither PDF, JPEG, nor PNG) does not fail: the
classifier returns Unknown with a nil error, the switch has no matching
case, the file is silently dropped, and with every external step succeeding
the whole request returns `success=true` with the note "merge successful" —
no diagnostic names `x.txt`. -/
theorem c2_counterexample :
    textFile.data ≠ [] ∧ filetypeMatch textFile.data = some FileKind.other ∧
      (serverMerge mEnvOk [textFile] false).1.1.success = true ∧
      (serverMerge mEnvOk [textFile] false).1.1.note = "merge successful" := by
  refine ⟨by decide, by decide, by decide, by decide⟩

/-- C2, amended.  The merge request fails with a note naming the offending
file ("file type for NAME unsupported") exactly when the classifier returns
an error, which happens only for a file whose data is empty; a file with
non-empty content that is neither PDF, JPEG, nor PNG is classified without
error and silently contributes nothing to the prepared list (no failure, no
partial-result error). -/
theorem c2_unsupported_gate :
    (∀ (env : MergeEnv) (id dir : String) (f : File) (rest : List File) (fe : Bool),
      env.uuid = .ok id → env.tempDir = .ok dir → f.data = [] →
      (mergeFiles env (f :: rest) fe).1 =
        .error ("file type for " ++ f.name ++ " unsupported") ∧
      (serverMerge env (f :: rest) fe).1.1.success = false) ∧
    (∀ (env : MergeEnv) (f : File) (k : FileKind),
      filetypeMatch f.data = some k → k ≠ .pdf → k ≠ .jpg → k ≠ .png →
      prepStep env f = .ok none) := by
  constructor
  · intro env id dir f rest fe hu ht hd
    have hstep : prepStep env f =
        .error ("file type for " ++ f.name ++ " unsupported") := by
      simp [prepStep, filetypeMatch, hd]
    constructor
    · simp [mergeFiles, mergeBody, prepareFiles, hstep, hu, ht]
    · simp [serverMerge, mergeFiles, mergeBody, prepareFiles, replyOf, hstep, hu, ht]
  · exact prepStep_skip

/-- C2, witness for the amended theorem: an empty-data file fails the merge
naming the file; a recognized GIF file is skipped without error. -/
theorem c2_unsupported_gate_witness :
    (mergeFiles mEnvOk [emptyFile] false).1 =
      .error "file type for e.bin unsupported" ∧
    prepStep mEnvOk gifFile = .ok none := by
  constructor
  · exact (c2_unsupported_gate.1 mEnvOk "mid" "/tmp/mergeFiles1" emptyFile [] false
      rfl rfl rfl).1
  · exact c2_unsupported_gate.2 mEnvOk gifFile FileKind.gif (by decide)
      (by decide) (by decide) (by decide)

/-- C3.  Both RPC handlers always return a nil RPC error, whatever the
pipeline does; when the pipeline fails with error message `e`, the reply
carries `success=false` and `note = e`, and `e` is non-empty whenever the
environment's raw error strings are non-empty (every wrapped pipeline
message has a non-empty literal prefix; the remaining messages are the raw
environment strings themselves). -/
theorem c3_pipeline_failure_is_successful_rpc :
    (∀ (env : BuildEnv) (files : List File),
      (serverBuildLatex env files).1.2 = none) ∧
    (∀ (env : MergeEnv) (files : List File) (fe : Bool),
      (serverMerge env files fe).1.2 = none) ∧
    (∀ (env : BuildEnv) (files : List File) (e : String),
      (buildLatexPDF env files).1 = .error e →
      (serverBuildLatex env files).1.1.success = false ∧
        (serverBuildLatex env files).1.1.note = e ∧
        (BuildEnvGood env → e ≠ "")) ∧
    (∀ (env : MergeEnv) (files : List File) (fe : Bool) (e : String),
      (mergeFiles env files fe).1 = .error e →
      (serverMerge env files fe).1.1.success = false ∧
        (serverMerge env files fe).1.1.note = e ∧
        (MergeEnvGood env → e ≠ "")) := by
  refine ⟨?_, ?_, ?_, ?_⟩
  · intro env files
    rcases hb : buildLatexPDF env files with ⟨res, tr⟩
    simp [serverBuildLatex, hb]
  · intro env files fe
    rcases hm : mergeFiles env files fe with ⟨res, tr⟩
    simp [serverMerge, hm]
  · intro env files e h
    rcases hb : buildLatexPDF env files with ⟨res, tr⟩
    rw [hb] at h
    simp only at h
    subst h
    refine ⟨by simp [serverBuildLatex, hb, replyOf], by simp [serverBuildLatex, hb, replyOf], ?_⟩
    intro hg
    refine buildLatexPDF_error_ne_empty env files e hg ?_
    rw [hb]
  · intro env files fe e h
    rcases hm : mergeFiles env files fe with ⟨res, tr⟩
    rw [hm] at h
    simp only at h
    subst h
    refine ⟨by simp [serverMerge, hm, replyOf], by simp [serverMerge, hm, replyOf], ?_⟩
    intro hg
    refine mergeFiles_error_ne_empty env files fe e hg ?_
    rw [hm]

theorem bEnvCleanFailGood : BuildEnvGood bEnvCleanFail := by
  refine ⟨?_, ?_, ?_, ?_, ?_, ?_, ?_⟩
  · exact fun _ h => nomatch h
  · exact fun _ h => nomatch h
  · exact fun _ h => nomatch h
  · exact fun _ _ h => nomatch h
  · intro e h
    rw [← Option.some.inj h]
    decide
  · exact fun _ h => nomatch h
  · exact fun _ h => nomatch h

/-- C3, witness: a build whose `latexmk -C` step fails with "exit status 1"
yields a nil RPC error, `success=false`, and that non-empty note. -/
theorem c3_pipeline_failure_is_successful_rpc_witness :
    (serverBuildLatex bEnvCleanFail [pdfFile]).1.2 = none ∧
      (serverBuildLatex bEnvCleanFail [pdfFile]).1.1.success = false ∧
      (serverBuildLatex bEnvCleanFail [pdfFile]).1.1.note = "exit status 1" ∧
      "exit status 1" ≠ "" := by
  have happ := c3_pipeline_failure_is_successful_rpc.2.2.1 bEnvCleanFail [pdfFile]
    "exit status 1" rfl
  exact ⟨c3_pipeline_failure_is_successful_rpc.1 bEnvCleanFail [pdfFile],
    happ.1, happ.2.1, happ.2.2 bEnvCleanFailGood⟩

/-- C4.  (1) When every input file prepares to a document (pointwise, in
order: `Forall₂` relates the i-th file to the i-th prepared document) and
every external step succeeds, the pipeline writes the prepared documents as
`0.pdf, 1.pdf, ...` in that order and invokes the concatenation tool once
with the page files in exactly that order.  (2) Whatever the request, any
concatenation invocation that occurs receives the canonical argument list
`--empty id.pdf --pages 0.pdf .. (n-1).pdf --` with the page files in index
order, so the page order of the merged output is the input-file order. -/
theorem c4_merge_preserves_input_order :
    (∀ (env : MergeEnv) (id dir : String) (files : List File)
      (ps : List (List Nat)) (out : List Nat),
      env.uuid = .ok id → env.tempDir = .ok dir →
      List.Forall₂ (fun f p => prepStep env f = .ok (some p)) files ps →
      (∀ i, env.writeErr i = none) →
      env.concatErr = none → env.readOutput = .ok out →
      mergeFiles env files false =
        (.ok out,
          Event.mkTempDir dir ::
            (writeEvents 0 ps ++
              [Event.runConcat
                  (["--empty", id ++ ".pdf", "--pages"] ++ pageNames 0 ps.length ++ ["--"]),
                Event.removeDir dir env.removeOk]))) ∧
    (∀ (env : MergeEnv) (files : List File) (fe : Bool) (id : String)
      (args : List String),
      env.uuid = .ok id →
      Event.runConcat args ∈ (mergeFiles env files fe).2 →
      ∃ ps, prepareFiles env files = .ok ps ∧
        args = ["--empty", id ++ ".pdf", "--pages"] ++ pageNames 0 ps.length ++ ["--"]) := by
  constructor
  · intro env id dir files ps out hu ht hf hw hc hr
    have hprep := prepareFiles_of_forall2 env hf
    have hasm := assembleLoop_false_ok env hw ps 0
    simp [mergeFiles, mergeBody, hu, ht, hprep, hasm, hc, hr]
  · intro env files fe id args hu hm
    unfold mergeFiles at hm
    rw [hu] at hm
    cases hte : env.tempDir with
    | error e => simp only [hte] at hm; cases hm
    | ok dir =>
      simp only [hte] at hm
      rcases hb : mergeBody env id files fe with ⟨res, tr⟩
      simp only [hb] at hm
      rcases List.mem_cons.mp hm with hm1 | hm2
      · exact absurd hm1 (by simp)
      · rcases List.mem_append.mp hm2 with hm3 | hm4
        · exact mergeBody_concat_args env id files fe args (by rw [hb]; exact hm3)
        · exact absurd (List.mem_singleton.mp hm4) (by simp)

/-- C4, witness: a two-PDF merge writes `0.pdf` then `1.pdf` and passes
`0.pdf 1.pdf` to the concatenation tool in input order. -/
theorem c4_merge_preserves_input_order_witness :
    mergeFiles mEnvOk [pdfFile, pdfFileB] false =
      (.ok [0x25, 0x50, 0x44, 0x46, 0x6D],
        [Event.mkTempDir "/tmp/mergeFiles1",
          Event.writeDoc 0 pdfFile.data, Event.writeDoc 1 pdfFileB.data,
          Event.runConcat ["--empty", "mid.pdf", "--pages", "0.pdf", "1.pdf", "--"],
          Event.removeDir "/tmp/mergeFiles1" true]) ∧
    (∃ ps, prepareFiles mEnvOk [pdfFile, pdfFileB] = .ok ps ∧
      ["--empty", "mid.pdf", "--pages", "0.pdf", "1.pdf", "--"] =
        ["--empty", "mid" ++ ".pdf", "--pages"] ++ pageNames 0 ps.length ++ ["--"]) := by
  constructor
  · have := c4_merge_preserves_input_order.1 mEnvOk "mid" "/tmp/mergeFiles1"
      [pdfFile, pdfFileB] [pdfFile.data, pdfFileB.data] [0x25, 0x50, 0x44, 0x46, 0x6D]
      rfl rfl (List.Forall₂.cons rfl (List.Forall₂.cons rfl List.Forall₂.nil))
      (fun _ => rfl) rfl rfl
    simpa [writeEvents, pageNames] using this
  · exact c4_merge_preserves_input_order.2 mEnvOk [pdfFile, pdfFileB] false "mid"
      ["--empty", "mid.pdf", "--pages", "0.pdf", "1.pdf", "--"] rfl (by decide)

/-- C5.  (1) With `force_even=true` and all external steps succeeding, where
`pages i` is the introspected page count of prepared document `i`, the trace
interleaves, per document and in index order, a write and a page-count
query, plus — exactly when `pages i` is odd — a single in-place append of
the configured blank PDF, all before the single concatenation invocation.
An even count adds nothing.  (2) With `force_even=false` the parity step
never runs: no page-count query and no blank-append event occurs anywhere
in the trace. -/
theorem c5_parity_enforcement :
    (∀ (env : MergeEnv) (id dir : String) (files : List File)
      (ps : List (List Nat)) (pages : Nat → Int) (out : List Nat),
      env.uuid = .ok id → env.tempDir = .ok dir →
      prepareFiles env files = .ok ps →
      (∀ i, env.writeErr i = none) →
      (∀ i, ∃ s, env.showNpages i = .ok s ∧ goAtoi (trimWS s.data) = some (pages i)) →
      (∀ i, (pages i).tmod 2 = 1 → env.blankMerge i = none) →
      env.concatErr = none → env.readOutput = .ok out →
      mergeFiles env files true =
        (.ok out,
          Event.mkTempDir dir ::
            (parityEvents env.blankPath pages 0 ps ++
              [Event.runConcat
                  (["--empty", id ++ ".pdf", "--pages"] ++ pageNames 0 ps.length ++ ["--"]),
                Event.removeDir dir env.removeOk]))) ∧
    (∀ (env : MergeEnv) (files : List File) (ev : Event),
      ev ∈ (mergeFiles env files false).2 →
      (∀ i, ev ≠ Event.showNpages i) ∧ (∀ i bp, ev ≠ Event.appendBlank i bp)) := by
  constructor
  · intro env id dir files ps pages out hu ht hprep hw hs hb hc hr
    have hasm := assembleLoop_true_ok env pages hw hs hb ps 0
    simp [mergeFiles, mergeBody, hu, ht, hprep, hasm, hc, hr]
  · intro env files ev hm
    unfold mergeFiles at hm
    cases hue : env.uuid with
    | error e => simp only [hue] at hm; cases hm
    | ok id =>
      simp only [hue] at hm
      cases hte : env.tempDir with
      | error e => simp only [hte] at hm; cases hm
      | ok dir =>
        simp only [hte] at hm
        rcases hb : mergeBody env id files false with ⟨res, tr⟩
        simp only [hb] at hm
        rcases List.mem_cons.mp hm with hm1 | hm2
        · subst hm1
          exact ⟨fun i => by simp, fun i bp => by simp⟩
        · rcases List.mem_append.mp hm2 with hm3 | hm4
          · rcases mergeBody_false_events env id files ev (by rw [hb]; exact hm3) with
              ⟨j, p, hj⟩ | ⟨pas, hj⟩ <;> subst hj <;>
              exact ⟨fun i => by simp, fun i bp => by simp⟩
          · rw [List.mem_singleton.mp hm4]
            exact ⟨fun i => by simp, fun i bp => by simp⟩

/-- C5, witness: merging two PDFs with `force_even=true` where document 0
has 3 pages (odd) and document 1 has 2 pages (even) appends the configured
blank exactly once, to document 0, before the concatenation. -/
theorem c5_parity_enforcement_witness :
    mergeFiles mEnvOdd [pdfFile, pdfFileB] true =
      (.ok [0x25, 0x50, 0x44, 0x46, 0x6D],
        [Event.mkTempDir "/tmp/mergeFiles1",
          Event.writeDoc 0 pdfFile.data, Event.showNpages 0,
          Event.appendBlank 0 "/gedoc/blank.pdf",
          Event.writeDoc 1 pdfFileB.data, Event.showNpages 1,
          Event.runConcat ["--empty", "mid.pdf", "--pages", "0.pdf", "1.pdf", "--"],
          Event.removeDir "/tmp/mergeFiles1" true]) := by
  have h := c5_parity_enforcement.1 mEnvOdd "mid" "/tmp/mergeFiles1"
    [pdfFile, pdfFileB] [pdfFile.data, pdfFileB.data] oddPages
    [0x25, 0x50, 0x44, 0x46, 0x6D] rfl rfl rfl (fun _ => rfl)
    (fun i => by
      refine ⟨if i = 0 then "3" else "2", rfl, ?_⟩
      by_cases hi : i = 0
      · subst hi; decide
      · simp only [if_neg hi, oddPages]; decide)
    (fun i _ => rfl) rfl rfl
  rw [h]
  rfl

/-- C6, counterexample.  A build input carrying `folder="sub"` is written at
the workspace root (`dir/a.tex`), not at its folder subpath
(`dir/sub/a.tex`): the `folder` field is ignored by `buildLatexPDF`. -/
theorem c6_counterexample :
    folderFile.folder = "sub" ∧
      Event.writeInput "/tmp/buildLatexPDF1/a.tex" ∈
        (buildLatexPDF bEnvOk [folderFile]).2 ∧
      Event.writeInput
          ("/tmp/buildLatexPDF1/" ++ folderFile.folder ++ "/" ++ folderFile.name) ∉
        (buildLatexPDF bEnvOk [folderFile]).2 := by
  refine ⟨by decide, by decide, by decide⟩

/-- C6, amended.  Each build input is written at `dir + "/" + name`; the
`folder` field is never read, so changing every file's folder arbitrarily
leaves the whole pipeline execution unchanged, and subfolder
materialization is not supported. -/
theorem c6_materialize_ignores_folder :
    (∀ (env : BuildEnv) (files : List File) (g : File → String),
      buildLatexPDF env (files.map fun f => { f with folder := g f }) =
        buildLatexPDF env files) ∧
    (∀ (env : BuildEnv) (id dir : String) (files : List File),
      env.uuid = .ok id → env.tempDir = .ok dir → files ≠ [] →
      env.copyLatexSettings = none → (∀ i, env.writeErr i = none) →
      env.cleanErr = none → env.buildErr = none →
      buildLatexPDF env files =
        (env.readResult,
          Event.mkTempDir dir ::
            (files.map (fun f => Event.writeInput (dir ++ "/" ++ f.name)) ++
              [Event.runClean, Event.runBuild id, Event.removeDir dir env.removeOk]))) := by
  constructor
  · exact buildLatexPDF_folder_blind
  · intro env id dir files hu ht hnil hs hw hc hb2
    have hwa := writeAllInputs_ok env dir hw files 0
    simp [buildLatexPDF, buildBody, hu, ht, hnil, hs, hc, hb2, hwa]

/-- C6, witness for the amended theorem at concrete inputs. -/
theorem c6_materialize_ignores_folder_witness :
    buildLatexPDF bEnvOk [{ folderFile with folder := "elsewhere" }] =
      buildLatexPDF bEnvOk [folderFile] ∧
    buildLatexPDF bEnvOk [folderFile] =
      (.ok [0x25, 0x50, 0x44, 0x46, 0x62],
        [Event.mkTempDir "/tmp/buildLatexPDF1",
          Event.writeInput "/tmp/buildLatexPDF1/a.tex",
          Event.runClean, Event.runBuild "bid",
          Event.removeDir "/tmp/buildLatexPDF1" true]) := by
  constructor
  · exact c6_materialize_ignores_folder.1 bEnvOk [folderFile] (fun _ => "elsewhere")
  · have h := c6_materialize_ignores_folder.2 bEnvOk "bid" "/tmp/buildLatexPDF1"
      [folderFile] rfl rfl (by decide) rfl (fun _ => rfl) rfl rfl
    rw [h]
    rfl

/-- C7, counterexample.  The tolerance test is a substring check on the
error text: a concatenation run failing with "exit status 31" — a non-zero
status different from the tolerated status 3 — is nevertheless tolerated
(the text contains "exit status 3"), and the merge succeeds. -/
theorem c7_counterexample :
    mEnvExit31.concatErr = some "exit status 31" ∧
      "exit status 31" ≠ "exit status 3" ∧
      (serverMerge mEnvExit31 [pdfFile] false).1.1.success = true ∧
      (serverMerge mEnvExit31 [pdfFile] false).1.1.note = "merge successful" := by
  refine ⟨by decide, by decide, by decide, by decide⟩

/-- C7, amended.  When the concatenation run fails with error text `e`: if
`e` contains "exit status 3" as a substring (true for "exit status 3"
itself, but also e.g. for "exit status 31"), the merge still succeeds
provided the output file is readable, returning its bytes, and fails with a
read diagnostic otherwise; if `e` does not contain that substring, the
merge fails with "failed merging pdf files: e". -/
theorem c7_concat_exit_tolerance :
    ∀ (env : MergeEnv) (id dir : String) (files : List File)
      (ps : List (List Nat)) (e : String),
      env.uuid = .ok id → env.tempDir = .ok dir →
      prepareFiles env files = .ok ps → (∀ i, env.writeErr i = none) →
      env.concatErr = some e →
      ((∀ out, goContains e "exit status 3" = true → env.readOutput = .ok out →
          (mergeFiles env files false).1 = .ok out) ∧
        (∀ r, goContains e "exit status 3" = true → env.readOutput = .error r →
          (mergeFiles env files false).1 =
            .error ("failed reading produced PDF: " ++ r)) ∧
        (goContains e "exit status 3" = false →
          (mergeFiles env files false).1 =
            .error ("failed merging pdf files: " ++ e))) := by
  intro env id dir files ps e hu ht hprep hw hc
  have hasm := assembleLoop_false_ok env hw ps 0
  refine ⟨?_, ?_, ?_⟩
  · intro out hg hr
    simp [mergeFiles, mergeBody, hu, ht, hprep, hasm, hc, hg, hr]
  · intro r hg hr
    simp [mergeFiles, mergeBody, hu, ht, hprep, hasm, hc, hg, hr]
  · intro hg
    simp [mergeFiles, mergeBody, hu, ht, hprep, hasm, hc, hg]

/-- C7, witness: "exit status 31" is tolerated and the merge returns the
output bytes; "exit status 2" is not tolerated and the merge fails. -/
theorem c7_concat_exit_tolerance_witness :
    goContains "exit status 31" "exit status 3" = true ∧
      (mergeFiles mEnvExit31 [pdfFile] false).1 =
        .ok [0x25, 0x50, 0x44, 0x46, 0x6D] ∧
      goContains "exit status 2" "exit status 3" = false ∧
      (mergeFiles mEnvExit2 [pdfFile] false).1 =
        .error "failed merging pdf files: exit status 2" := by
  refine ⟨by decide, ?_, by decide, ?_⟩
  · exact (c7_concat_exit_tolerance mEnvExit31 "mid" "/tmp/mergeFiles1" [pdfFile]
      [pdfFile.data] "exit status 31" rfl rfl rfl (fun _ => rfl) rfl).1
      [0x25, 0x50, 0x44, 0x46, 0x6D] (by decide) rfl
  · exact (c7_concat_exit_tolerance mEnvExit2 "mid" "/tmp/mergeFiles1" [pdfFile]
      [pdfFile.data] "exit status 2" rfl rfl rfl (fun _ => rfl) rfl).2.2 (by decide)

/-- C8.  Whenever a reply carries `success=false`, its `data` field is the
empty byte sequence: every error path of `buildLatexPDF` and `mergeFiles`
yields no bytes, and the handler maps an error result to empty data. -/
theorem c8_failure_implies_empty_data :
    (∀ (env : BuildEnv) (files : List File),
      (serverBuildLatex env files).1.1.success = false →
      (serverBuildLatex env files).1.1.data = []) ∧
    (∀ (env : MergeEnv) (files : List File) (fe : Bool),
      (serverMerge env files fe).1.1.success = false →
      (serverMerge env files fe).1.1.data = []) := by
  constructor
  · intro env files h
    rcases hb : buildLatexPDF env files with ⟨res, tr⟩
    cases res with
    | error e => simp [serverBuildLatex, hb, replyOf]
    | ok bs => simp [serverBuildLatex, hb, replyOf] at h
  · intro env files fe h
    rcases hm : mergeFiles env files fe with ⟨res, tr⟩
    cases res with
    | error e => simp [serverMerge, hm, replyOf]
    | ok bs => simp [serverMerge, hm, replyOf] at h

/-- C8, witness: the failing empty build request produces `success=false`
with empty data. -/
theorem c8_failure_implies_empty_data_witness :
    (serverBuildLatex bEnvOk []).1.1.success = false ∧
      (serverBuildLatex bEnvOk []).1.1.data = [] := by
  refine ⟨by decide, ?_⟩
  exact c8_failure_implies_empty_data.1 bEnvOk [] (by decide)

/-- C9.  Once the workspace directory has been created, every execution path
of both pipelines ends with its recursive removal (the trace opens with the
creation and closes with the removal), and the outcome of the removal —
which is only logged — never influences the pipeline's result. -/
theorem c9_workspace_cleanup :
    (∀ (env : MergeEnv) (id dir : String) (files : List File) (fe : Bool),
      env.uuid = .ok id → env.tempDir = .ok dir →
      (∃ tr, (mergeFiles env files fe).2 =
        Event.mkTempDir dir :: (tr ++ [Event.removeDir dir env.removeOk])) ∧
      (∀ b, (mergeFiles { env with removeOk := b } files fe).1 =
        (mergeFiles env files fe).1)) ∧
    (∀ (env : BuildEnv) (id dir : String) (files : List File),
      env.uuid = .ok id → env.tempDir = .ok dir →
      (∃ tr, (buildLatexPDF env files).2 =
        Event.mkTempDir dir :: (tr ++ [Event.removeDir dir env.removeOk])) ∧
      (∀ b, (buildLatexPDF { env with removeOk := b } files).1 =
        (buildLatexPDF env files).1)) := by
  constructor
  · intro env id dir files fe hu ht
    refine ⟨?_, fun b => mergeFiles_fst_removeOk env b files fe⟩
    rcases hb : mergeBody env id files fe with ⟨res, tr⟩
    exact ⟨tr, by simp [mergeFiles, hu, ht, hb]⟩
  · intro env id dir files hu ht
    refine ⟨?_, fun b => buildLatexPDF_fst_removeOk env b files⟩
    rcases hb : buildBody env id dir files with ⟨res, tr⟩
    exact ⟨tr, by simp [buildLatexPDF, hu, ht, hb]⟩

/-- C9, witness: even when the per-document write fails, the merge trace
still closes with the directory removal, and flipping the removal's outcome
leaves the result unchanged. -/
theorem c9_workspace_cleanup_witness :
    (∃ tr, (mergeFiles mEnvWriteFail [pdfFile] false).2 =
      Event.mkTempDir "/tmp/mergeFiles1" ::
        (tr ++ [Event.removeDir "/tmp/mergeFiles1" true])) ∧
    (mergeFiles { mEnvWriteFail with removeOk := false } [pdfFile] false).1 =
      (mergeFiles mEnvWriteFail [pdfFile] false).1 := by
  have h := c9_workspace_cleanup.1 mEnvWriteFail "mid" "/tmp/mergeFiles1"
    [pdfFile] false rfl rfl
  exact ⟨h.1, h.2 false⟩

/-- C10.  A file whose content the classifier recognizes as any kind other
than PDF, JPEG, or PNG (e.g. GIF) matches no case of the merge switch: the
whole pipeline execution — result and trace — is identical to the one on
the request with that file removed, so no error is raised, the file is
absent from the concatenation, and the remaining files are still merged. -/
theorem c10_unhandled_kind_silently_skipped :
    ∀ (env : MergeEnv) (xs ys : List File) (f : File) (fe : Bool) (k : FileKind),
      filetypeMatch f.data = some k → k ≠ .pdf → k ≠ .jpg → k ≠ .png →
      mergeFiles env (xs ++ f :: ys) fe = mergeFiles env (xs ++ ys) fe := by
  intro env xs ys f fe k hk h1 h2 h3
  exact mergeFiles_congr env _ _ fe (prepareFiles_skip env f k hk h1 h2 h3 xs ys)

/-- C10, witness: a GIF file in a merge request is dropped and the rest
merges successfully. -/
theorem c10_unhandled_kind_silently_skipped_witness :
    filetypeMatch gifFile.data = some FileKind.gif ∧
      mergeFiles mEnvOk [gifFile, pdfFile] false = mergeFiles mEnvOk [pdfFile] false ∧
      (serverMerge mEnvOk [gifFile, pdfFile] false).1.1.success = true := by
  refine ⟨by decide, ?_, by decide⟩
  exact c10_unhandled_kind_silently_skipped mEnvOk [] [pdfFile] gifFile false
    FileKind.gif (by decide) (by decide) (by decide) (by decide)

end Gedoc
